import Mathlib

/-!
Verification of the interactive terminal controller of the `tdewolff/prompt`
Go library against its specification.

The development shallowly embeds the relevant parts of the source:

* `util.go` — the windowed/searchable selection list `terminalList`
  (its integer helpers `Min`/`Max`/`Clip`, the case-insensitive matcher
  `matchOption`, the re-filtering loop, the window/selection update and the
  key handlers) as an explicit state machine over `ListState`;
* `prompt.go` — the in-place line editor of `Prompt` (insert, backspace,
  delete, caret movement), the error epilogues of `Prompt` and of the
  non-windowed `Select`, the destination-conversion step for floating point
  destinations, and the configuration checks of `Select`;
* `select.go` — the configuration checks and error epilogue of the windowed
  `Select`, and the initial-selection clamp `getSelected`.

Go machine integers are modelled as `Int` (no overflow is reachable at the
sizes involved), Go strings as `List Char`, Go slices as `List`, and Go
run-time panics (out-of-range slice indexing, `strings.Repeat` with negative
count, failed type assertions) as `Option`/explicit outcome values.
-/

/-- util.go 10-15, the Go helper `Min` on Go ints. -/
def goMin (a b : Int) : Int :=
  if a < b then a else b

/-- util.go 17-22, the Go helper `Max` on Go ints. -/
def goMax (a b : Int) : Int :=
  if a < b then b else a

/-- util.go 24-31, the Go helper `Clip`: clamp `x` into `[a, b]`. -/
def goClip (x a b : Int) : Int :=
  if x < a then a
  else if b < x then b
  else x

/-- Go integer division (`/` in Go truncates toward zero, like `Int.tdiv`).
All uses below have a nonnegative numerator, where this agrees with every
division convention. -/
def goDiv (a b : Int) : Int :=
  Int.tdiv a b

/-- Model of Go `strings.ToLower` on a string modelled as `List Char`
(per code point, via `Char.toLower`). -/
def lowerStr (s : List Char) : List Char :=
  s.map Char.toLower

/-- Helper for `strContains`: does `hay` start with `needle`? -/
def strStarts : List Char → List Char → Bool
  | _, [] => true
  | [], _ :: _ => false
  | c :: cs, d :: ds => c == d && strStarts cs ds

/-- Model of Go `strings.Contains hay needle`: `needle` occurs as a
contiguous substring of `hay` (the empty needle always occurs). -/
def strContains (hay needle : List Char) : Bool :=
  strStarts hay needle ||
    match hay with
    | [] => false
    | _ :: t => strContains t needle

/-- util.go 33-35: `matchOption(query, option)` is
`strings.Contains(strings.ToLower(option), strings.ToLower(query))`. -/
def matchOption (query option : List Char) : Bool :=
  strContains (lowerStr option) (lowerStr query)

/-- Modelled from the spec (§3 SearchState): the FilteredIndex is the
ordered subsequence of OptionSet indices whose label case-insensitively
contains the query substring. Stated as a filter of `[0, ..., N-1]`. -/
def specFilteredIndex (query : List Char) (options : List (List Char)) : List Nat :=
  (List.range options.length).filter fun i => matchOption query (options.getD i [])

/-! ## Line editor of `Prompt` (prompt.go)

The editable buffer `result : List Char` with caret `pos`. Operations are
transcribed from the key branches of the read loop of `Prompt`. -/

/-- prompt.go 582-586: a printable rune is inserted at the caret and the
caret advances by one (`result = append(result[:pos], append([]rune{r},
result[pos:]...)...)`, `pos++`). -/
def insertAt (result : List Char) (pos : Nat) (c : Char) : List Char × Nat :=
  (result.take pos ++ c :: result.drop pos, pos + 1)

/-- prompt.go 511-518: backspace removes the code point left of the caret
and is a no-op at caret 0 (`if pos != 0 ... result = append(result[:pos-1],
result[pos:]...)`, `pos--`). -/
def deleteBefore (result : List Char) (pos : Nat) : List Char × Nat :=
  if pos ≠ 0 then (result.take (pos - 1) ++ result.drop pos, pos - 1)
  else (result, pos)

/-- prompt.go 546-557 (the CSI `3~` branch): delete removes the code point
at the caret and is a no-op at caret = length (`if pos != len(result) ...
result = append(result[:pos], result[pos+1:]...)`). -/
def deleteAt (result : List Char) (pos : Nat) : List Char × Nat :=
  if pos ≠ result.length then (result.take pos ++ result.drop (pos + 1), pos)
  else (result, pos)

/-- prompt.go 530-534: the left arrow moves the caret left, guarded by
`pos != 0`. The caret is a Go int. -/
def leftArrow (pos : Int) : Int :=
  if pos ≠ 0 then pos - 1 else pos

/-- prompt.go 535-539: the right arrow moves the caret right, guarded by
`pos != len(result)`. -/
def rightArrow (len pos : Int) : Int :=
  if pos ≠ len then pos + 1 else pos

/-- prompt.go 540-542 (Home) and 560-562 (Ctrl+A): caret to 0. The emitted
`strings.Repeat(escMoveLeft, pos)` panics in Go on a negative count, modelled
as `none`. -/
def moveHome (pos : Int) : Option Int :=
  if 0 ≤ pos then some 0 else none

/-- prompt.go 543-545 (End) and 566-568 (Ctrl+E): caret to the length. The
emitted `strings.Repeat(escMoveRight, len(result)-pos)` panics in Go on a
negative count, modelled as `none`. -/
def moveEnd (len pos : Int) : Option Int :=
  if pos ≤ len then some len else none

/-- prompt.go 563-565: Ctrl+B decrements the caret with no bounds check
(`fmt.Printf(escMoveLeft); pos--`). -/
def ctrlB (pos : Int) : Int :=
  pos - 1

/-- prompt.go 569-571: Ctrl+F increments the caret with no bounds check
(`fmt.Printf(escMoveRight); pos++`). -/
def ctrlF (pos : Int) : Int :=
  pos + 1

/-! ## Session outcomes: interrupt, escape and the error epilogues

`keyInterrupt` and `keyEscape` (prompt.go 20-21) are distinguished error
values produced by the read loops; each prompt ends with an epilogue that
turns the loop exit into a caller-visible outcome. The epilogues are
modelled as the ordered list of observable events they perform. -/

/-- How the read loop of a prompt session ends. -/
inductive LoopExit
  | ok
  | interrupt
  | escape
  | readErr
deriving DecidableEq, Repr

/-- The Go error value a session returns (`nil` is `Option.none`). -/
inductive GoErr
  | interrupt
  | escape
  | io
deriving DecidableEq, Repr

/-- Observable events of a session epilogue, in order: restoring cooked
terminal mode, raising SIGINT against the own process, writing the
destination, and returning (with or without an error). -/
inductive PEvent
  | restoreTerm
  | raiseSigint
  | setDst
  | retNil
  | retErr (e : GoErr)
deriving DecidableEq, Repr

/-- prompt.go 588-603 (the epilogue of `Prompt`): `restore()` runs first; on
`keyInterrupt` it prints `^C`, raises SIGINT via `syscall.Kill(syscall.Getpid(),
syscall.SIGINT)` and returns the error; on `keyEscape` it returns nil without
touching the destination; other read errors are returned. On a nil loop exit
the session continues to conversion/validation (605-762), modelled here only
as the destination write before the nil return. -/
def promptEpilogue : LoopExit → List PEvent
  | .interrupt => [.restoreTerm, .raiseSigint, .retErr .interrupt]
  | .escape => [.restoreTerm, .retNil]
  | .readErr => [.restoreTerm, .retErr .io]
  | .ok => [.restoreTerm, .setDst, .retNil]

/-- prompt.go 893-925 (the epilogue of the non-windowed `Select`):
`restore()` runs first; `keyInterrupt` prints `^C`, raises SIGINT and returns
the error; `keyEscape` returns nil; success writes the destination. -/
def selectEpiloguePG : LoopExit → List PEvent
  | .interrupt => [.restoreTerm, .raiseSigint, .retErr .interrupt]
  | .escape => [.restoreTerm, .retNil]
  | .readErr => [.restoreTerm, .retErr .io]
  | .ok => [.restoreTerm, .setDst, .retNil]

/-- select.go 78-101 (the epilogue of the windowed `Select`; the deferred
`restore` of `terminalList`, util.go 69-73, runs before `terminalList`
returns): `keyInterrupt` prints `^C` and is returned as an error with no
SIGINT raise; `keyEscape` has no special case and is returned as an error;
success writes the destination. -/
def selectEpilogueTL : LoopExit → List PEvent
  | .interrupt => [.restoreTerm, .retErr .interrupt]
  | .escape => [.restoreTerm, .retErr .escape]
  | .readErr => [.restoreTerm, .retErr .io]
  | .ok => [.restoreTerm, .setDst, .retNil]

/-! ## Configuration checks of the two `Select` implementations -/

/-- The configuration errors a `Select` call can fail fast with. -/
inductive ConfigErr
  | notPointer
  | notSlice
  | noOptions
  | tooMany
deriving DecidableEq, Repr

/-- Events of the pre-loop phase of a `Select` call: either a configuration
error is returned, or raw terminal mode is entered. -/
inductive SEvent
  | errReturn (e : ConfigErr)
  | enterRaw
deriving DecidableEq, Repr

/-- prompt.go 808-822, the checks of the non-windowed `Select`: destination
must be a pointer, options a slice, `options.Len() == 0` is an error, and
`256 <= options.Len()` is an error. -/
def selectChecksPG (dstIsPtr optsIsSlice : Bool) (n : Nat) : Option ConfigErr :=
  if !dstIsPtr then some .notPointer
  else if !optsIsSlice then some .notSlice
  else if n = 0 then some .noOptions
  else if 256 ≤ n then some .tooMany
  else none

/-- select.go 34-43, the checks of the windowed `Select`: destination must
be a pointer, options a slice, `options.Len() == 0` is an error. There is no
option-count cap. -/
def selectChecksSG (dstIsPtr optsIsSlice : Bool) (n : Nat) : Option ConfigErr :=
  if !dstIsPtr then some .notPointer
  else if !optsIsSlice then some .notSlice
  else if n = 0 then some .noOptions
  else none

/-- prompt.go `Select` with a pointer destination and a slice of `n`
options: the configuration checks (810-822) all run before `MakeRaw(true)`
(841), so either a configuration error is returned with raw mode never
entered, or raw mode is entered. -/
def selectSessionPG (n : Nat) : List SEvent :=
  match selectChecksPG true true n with
  | some e => [.errReturn e]
  | none => [.enterRaw]

/-- select.go `Select` with a pointer destination and a slice of `n`
options: the configuration checks (37-43) all run before `terminalList`
(67) acquires raw mode (util.go 69), so either a configuration error is
returned with raw mode never entered, or raw mode is entered. -/
def selectSessionSG (n : Nat) : List SEvent :=
  match selectChecksSG true true n with
  | some e => [.errReturn e]
  | none => [.enterRaw]

/-- select.go 8-30 (and identically prompt.go 765-804), the integer branch
of `getSelected`: an integer initial selection is taken as-is and then
clamped — negative values become 0, values at or past the option count
become count-1 — and no error is returned on this branch
(`return selected, nil`). -/
def getSelectedGo (selected : Int) (optionsLen : Int) : Int × Option ConfigErr :=
  let s :=
    if selected < 0 then 0
    else if optionsLen ≤ selected then optionsLen - 1
    else selected
  (s, none)

/-! ## The floating point destination conversion of `Prompt` -/

/-- Outcome of Go `strconv.ParseFloat` as seen by the caller: success
(`perr == nil`), a range error (`perr.Err == strconv.ErrRange`), or a syntax
error. -/
inductive ParseFloatOutcome
  | ok
  | rangeErr
  | syntaxErr
deriving DecidableEq, Repr

/-- Outcome of the destination conversion step. -/
inductive ConvOutcome
  | stored
  | overflowErr
  | invalidErr
  | panicked
deriving DecidableEq, Repr

/-- prompt.go 706-721 (the `float32` and `float64` cases, which are
structurally identical): after `f, perr := strconv.ParseFloat(res, bits)`
the code evaluates `perr.(*strconv.NumError).Err == strconv.ErrRange`
BEFORE checking `perr != nil`. When the parse succeeds, `perr` is the nil
error interface and the type assertion `perr.(*strconv.NumError)` panics at
run time; when the parse fails the assertion succeeds and the range check
selects between the overflow and the invalid error. (Contrast the integer
cases 630-705, which check `perr != nil` first.) -/
def floatConvGo (p : ParseFloatOutcome) : ConvOutcome :=
  match p with
  | .ok => .panicked
  | .rangeErr => .overflowErr
  | .syntaxErr => .invalidErr

/-! ## The windowed/searchable selection list `terminalList` (util.go 37-283)

The mutable locals of `terminalList` form the state. `options`, `maxLines`,
the clamped `scrollOffset` and `withQuery` are fixed parameters. The read
loop is: (head) re-filter on a query change and update the window on a
selection change, then render, then read one key and run its handler. The
observable states are therefore the head outputs; one step of the machine
is a key handler followed by the head. Key handlers that index
`optionsIndex` out of range or hand a negative count to `strings.Repeat`
panic in Go and are modelled as `none`. -/

structure ListState where
  /-- the live search query (util.go 76) -/
  query : List Char
  /-- the query of the previous re-filtering (util.go 76) -/
  prevQuery : List Char
  /-- filtered view: positions map to original option indices (util.go 63-66) -/
  optionsIndex : List Nat
  /-- selection, a position in `optionsIndex` -/
  selected : Int
  /-- selection at the previous render; -1 forces a full window reset -/
  prevSelected : Int
  /-- first visible position of the window -/
  windowStart : Int
  /-- number of visible lines (util.go 46, recomputed at 104) -/
  numLines : Int
  /-- caret position in the query (util.go 75) -/
  pos : Int
deriving DecidableEq, Repr

/-- util.go 86-97, the re-filtering loop: scan the options in order by
original index `i`; on a match, first compare `i` with `selected` (the
position in the PREVIOUS filtered view) and on equality relocate `selected`
to the length of the list built so far, then append `i`. -/
def refilterAux (q : List Char) : List (List Char) → Nat → List Nat → Int → Bool →
    List Nat × Int × Bool
  | [], _, acc, sel, has => (acc, sel, has)
  | o :: rest, i, acc, sel, has =>
    if matchOption q o then
      if (i : Int) = sel then refilterAux q rest (i + 1) (acc ++ [i]) (acc.length : Int) true
      else refilterAux q rest (i + 1) (acc ++ [i]) sel has
    else refilterAux q rest (i + 1) acc sel has

/-- The re-filtering loop started as at util.go 85-87: index 0, the list
reset to empty (`optionsIndex = optionsIndex[:0]`), `hasSelected = false`. -/
def refilterGo (q : List Char) (options : List (List Char)) (sel : Int) :
    List Nat × Int × Bool :=
  refilterAux q options 0 [] sel false

/-- util.go 83-115, the query-change block: rebuild `optionsIndex`, set
`prevQuery`, recompute `numLines = Min(maxLines, len(optionsIndex))`; with
zero lines print the placeholder and fix `prevSelected, selected = 0, 0`;
otherwise set `prevSelected = -1` and reset `selected` to 0 unless the
relocation fired. -/
def applyRefilter (options : List (List Char)) (maxLines : Int) (σ : ListState) :
    ListState :=
  let r := refilterGo σ.query options σ.selected
  let numLines := goMin maxLines (r.1.length : Int)
  if numLines = 0 then
    { σ with prevQuery := σ.query, optionsIndex := r.1, numLines := numLines,
             prevSelected := 0, selected := 0 }
  else
    { σ with prevQuery := σ.query, optionsIndex := r.1, numLines := numLines,
             prevSelected := -1,
             selected := if r.2.2 then r.2.1 else 0 }

/-- util.go 118-150, the selection/window block (run only when
`selected != prevSelected`): after a re-filtering (`prevSelected == -1`)
recompute the window around the selection; otherwise move the window up to
`Max(0, selected-scrollOffset)` or down to
`Min(selected+scrollOffset+1-numLines, len(optionsIndex)-numLines)` only
when the selection crosses the scroll margin; finally `prevSelected =
selected`. -/
def applyWindow (scrollOffset : Int) (σ : ListState) : ListState :=
  let count : Int := σ.optionsIndex.length
  let ws :=
    if σ.prevSelected = -1 then
      goClip (σ.selected - goDiv (σ.numLines - 1) 2) 0 (count - σ.numLines)
    else if σ.selected < σ.prevSelected ∧
        goMax 0 (σ.selected - scrollOffset) < σ.windowStart then
      goMax 0 (σ.selected - scrollOffset)
    else if σ.prevSelected < σ.selected ∧
        σ.windowStart < goMin (σ.selected + scrollOffset + 1 - σ.numLines) (count - σ.numLines) then
      goMin (σ.selected + scrollOffset + 1 - σ.numLines) (count - σ.numLines)
    else
      σ.windowStart
  { σ with windowStart := ws, prevSelected := σ.selected }

/-- The head of the read loop (util.go 83-156): the query-change block when
the query changed (and search is enabled), then the selection/window block
when the selection changed. -/
def headStep (options : List (List Char)) (maxLines scrollOffset : Int)
    (withQuery : Bool) (σ : ListState) : ListState :=
  let σ₁ := if withQuery ∧ σ.query ≠ σ.prevQuery then applyRefilter options maxLines σ else σ
  if σ₁.selected ≠ σ₁.prevSelected then applyWindow scrollOffset σ₁ else σ₁

/-- The logical keys of `terminalList` (util.go 164-281): selection keys,
query-editing keys, the picking keys (space, enter and Ctrl+D, which index
`optionsIndex[selected]`), and everything else (ignored). -/
inductive LKey
  | up
  | down
  | tab
  | pageUp
  | pageDown
  | backspace
  | left
  | right
  | home
  | endK
  | ctrlA
  | ctrlB
  | ctrlE
  | ctrlF
  | ctrlK
  | ctrlU
  | del
  | space
  | enter
  | other
  | char (c : Char)
deriving DecidableEq, Repr

/-- One key handler of the read loop of `terminalList` (util.go 164-281),
with Go run-time panics modelled as `none`:

* up (arrow up / Shift+Tab, 206-214): decrement, wrapping to the last
  position (or 0 on an empty filtered list);
* down (arrow down, 215-219) and tab (250-254): increment, wrapping to 0;
* page up (232-236): subtract `numLines`, clamped at 0;
* page down (237-246): add `numLines`, clamped at the last position;
* backspace (174-179), delete (226-231), Ctrl+K (267-270), Ctrl+U
  (271-276) and printable runes with search enabled (277-281): edit the
  query at the caret — Go slice expressions with an out-of-range caret
  panic;
* left/right/home/end (190-205), Ctrl+A (255-257), Ctrl+E (261-263): move
  the caret, where home/end and Ctrl+A/Ctrl+E emit `strings.Repeat`, which
  panics on a negative count; Ctrl+B (258-260) and Ctrl+F (264-266) move
  the caret with no bounds check;
* space (169-170), enter (171-173) and Ctrl+D (166-168): evaluate
  `optionsIndex[selected]`, which panics when out of range (in particular
  on an empty filtered list); the state is unchanged;
* anything else: ignored. -/
def handleKey (withQuery : Bool) (σ : ListState) (k : LKey) : Option ListState :=
  let count : Int := σ.optionsIndex.length
  let qlen : Int := σ.query.length
  match k with
  | .up =>
    let s := σ.selected - 1
    some { σ with selected := if s < 0 then (if count = 0 then 0 else count - 1) else s }
  | .down =>
    let s := σ.selected + 1
    some { σ with selected := if count ≤ s then 0 else s }
  | .tab =>
    let s := σ.selected + 1
    some { σ with selected := if count ≤ s then 0 else s }
  | .pageUp =>
    let s := σ.selected - σ.numLines
    some { σ with selected := if s < 0 then 0 else s }
  | .pageDown =>
    let s := σ.selected + σ.numLines
    some { σ with selected := if count ≤ s then (if count = 0 then 0 else count - 1) else s }
  | .backspace =>
    if σ.pos ≠ 0 then
      if 1 ≤ σ.pos ∧ σ.pos ≤ qlen then
        some { σ with query := σ.query.take (σ.pos - 1).toNat ++ σ.query.drop σ.pos.toNat,
                      pos := σ.pos - 1 }
      else none
    else some σ
  | .left => some { σ with pos := if σ.pos ≠ 0 then σ.pos - 1 else σ.pos }
  | .right => some { σ with pos := if σ.pos ≠ qlen then σ.pos + 1 else σ.pos }
  | .home => if 0 ≤ σ.pos then some { σ with pos := 0 } else none
  | .endK => if σ.pos ≤ qlen then some { σ with pos := qlen } else none
  | .ctrlA => if 0 ≤ σ.pos then some { σ with pos := 0 } else none
  | .ctrlB => some { σ with pos := σ.pos - 1 }
  | .ctrlE => if σ.pos ≤ qlen then some { σ with pos := qlen } else none
  | .ctrlF => some { σ with pos := σ.pos + 1 }
  | .ctrlK =>
    if 0 ≤ σ.pos ∧ σ.pos ≤ qlen then
      some { σ with query := σ.query.take σ.pos.toNat }
    else none
  | .ctrlU =>
    if 0 ≤ σ.pos ∧ σ.pos ≤ qlen then
      some { σ with query := σ.query.drop σ.pos.toNat, pos := 0 }
    else none
  | .del =>
    if σ.pos ≠ qlen then
      if 0 ≤ σ.pos ∧ σ.pos + 1 ≤ qlen then
        some { σ with query := σ.query.take σ.pos.toNat ++ σ.query.drop (σ.pos + 1).toNat }
      else none
    else some σ
  | .space => if 0 ≤ σ.selected ∧ σ.selected < count then some σ else none
  | .enter => if 0 ≤ σ.selected ∧ σ.selected < count then some σ else none
  | .other => some σ
  | .char c =>
    if withQuery ∧ ' ' ≤ c then
      if 0 ≤ σ.pos ∧ σ.pos ≤ qlen then
        some { σ with query := σ.query.take σ.pos.toNat ++ c :: σ.query.drop σ.pos.toNat,
                      pos := σ.pos + 1 }
      else none
    else some σ

/-- One full step of the machine: a key handler followed by the loop head
(which produces the next rendered state). -/
def listStep (options : List (List Char)) (maxLines scrollOffset : Int)
    (withQuery : Bool) (σ : ListState) (k : LKey) : Option ListState :=
  (handleKey withQuery σ k).map (headStep options maxLines scrollOffset withQuery)

/-- Run the machine over a sequence of keys (`none` once any step panics). -/
def runList (options : List (List Char)) (maxLines scrollOffset : Int)
    (withQuery : Bool) : ListState → List LKey → Option ListState
  | σ, [] => some σ
  | σ, k :: ks =>
    match listStep options maxLines scrollOffset withQuery σ k with
    | none => none
    | some σ' => runList options maxLines scrollOffset withQuery σ' ks

/-- util.go 46-49: the scroll offset is clamped once, before the loop, to
`(numLines-1)/2` where `numLines = Min(maxLines, len(options))`. -/
def initScroll (numLines scrollOffset : Int) : Int :=
  if goDiv (numLines - 1) 2 < scrollOffset then goDiv (numLines - 1) 2 else scrollOffset

/-- util.go 46-80: the state on entry of the read loop: `numLines =
Min(maxLines, len(options))`, the window clipped around the initial
selection, the identity `optionsIndex`, an empty query and
`prevSelected = selected`. -/
def initState (options : List (List Char)) (maxLines sel0 : Int) : ListState :=
  let nl := goMin maxLines (options.length : Int)
  { query := []
    prevQuery := []
    optionsIndex := List.range options.length
    selected := sel0
    prevSelected := sel0
    windowStart := goClip (sel0 - goDiv (nl - 1) 2) 0 ((options.length : Int) - nl)
    numLines := nl
    pos := 0 }

/-! ## Theorems -/

/-- C6: Line editor round-trip — inserting a code point at the caret and
then deleting before the (advanced) caret restores the original buffer and
caret exactly. -/
theorem lineEditor_insert_delete_roundtrip (result : List Char) (pos : Nat) (c : Char)
    (h : pos ≤ result.length) :
    deleteBefore (insertAt result pos c).1 (insertAt result pos c).2 = (result, pos) := by
  have hA : (result.take pos).length = pos := by
    simp [List.length_take, Nat.min_eq_left h]
  unfold insertAt deleteBefore
  simp only [Nat.add_sub_cancel, ne_eq, Nat.succ_ne_zero, not_false_eq_true, if_true]
  have htake : (result.take pos ++ c :: result.drop pos).take pos = result.take pos :=
    List.take_left' hA
  have hdrop : (result.take pos ++ c :: result.drop pos).drop (pos + 1) = result.drop pos := by
    rw [show result.take pos ++ c :: result.drop pos
          = (result.take pos ++ [c]) ++ result.drop pos by simp]
    exact List.drop_left' (by simp [hA])
  rw [htake, hdrop, List.take_append_drop]

/-- Witness for C6 at a concrete buffer and caret. -/
theorem lineEditor_insert_delete_roundtrip_witness :
    1 ≤ (['a', 'b'] : List Char).length ∧
      deleteBefore (insertAt ['a', 'b'] 1 'x').1 (insertAt ['a', 'b'] 1 'x').2 = (['a', 'b'], 1) :=
  ⟨by decide, lineEditor_insert_delete_roundtrip ['a', 'b'] 1 'x' (by decide)⟩

/-- C7 counterexample: Ctrl+B at caret 0 moves the caret to -1 instead of
clipping, violating the claimed invariant 0 ≤ cursor. -/
theorem ctrlB_unclipped_counterexample :
    ctrlB 0 = -1 ∧ ctrlB 0 < 0 ∧ ctrlF 2 = 3 := by
  decide

/-- C7 amended: backspace at caret 0 and delete at caret = length are
no-ops, and the arrow keys, Home and End keep the caret inside
[0, length]; but Ctrl+B and Ctrl+F move the caret with no bounds check, so
Ctrl+B at 0 yields -1 (and Ctrl+F at the length exceeds it), escaping the
interval. -/
theorem lineEditor_boundary_amended (result : List Char) (len pos : Int)
    (h0 : 0 ≤ pos) (hl : pos ≤ len) :
    deleteBefore result 0 = (result, 0) ∧
    deleteAt result result.length = (result, result.length) ∧
    (0 ≤ leftArrow pos ∧ leftArrow pos ≤ len) ∧
    (0 ≤ rightArrow len pos ∧ rightArrow len pos ≤ len) ∧
    moveHome pos = some 0 ∧
    moveEnd len pos = some len ∧
    ctrlB pos = pos - 1 ∧
    ctrlF pos = pos + 1 ∧
    ctrlB 0 = -1 := by
  refine ⟨by simp [deleteBefore], by simp [deleteAt], ?_, ?_, ?_, ?_, rfl, rfl, rfl⟩
  · unfold leftArrow
    split <;> omega
  · unfold rightArrow
    split <;> omega
  · simp [moveHome, h0]
  · simp [moveEnd, hl]

/-- Witness for C7 (amended) at a concrete buffer, length and caret. -/
theorem lineEditor_boundary_amended_witness :
    (0 : Int) ≤ 1 ∧ (1 : Int) ≤ 2 ∧
      (deleteBefore ['a'] 0 = (['a'], 0) ∧
       deleteAt ['a'] (['a'] : List Char).length = (['a'], (['a'] : List Char).length) ∧
       (0 ≤ leftArrow 1 ∧ leftArrow 1 ≤ 2) ∧
       (0 ≤ rightArrow 2 1 ∧ rightArrow 2 1 ≤ 2) ∧
       moveHome 1 = some 0 ∧
       moveEnd 2 1 = some 2 ∧
       ctrlB 1 = 1 - 1 ∧
       ctrlF 1 = 1 + 1 ∧
       ctrlB 0 = -1) :=
  ⟨by norm_num, by norm_num, lineEditor_boundary_amended ['a'] 2 1 (by norm_num) (by norm_num)⟩

/-- C4 counterexample: in the windowed `Select` of select.go, the escape
exit is returned to the caller as the (non-nil) escape error, not as a nil
"no change" outcome. -/
theorem select_escape_error_counterexample :
    ((selectEpilogueTL LoopExit.escape).contains PEvent.retNil) = false ∧
    ((selectEpilogueTL LoopExit.escape).contains (PEvent.retErr GoErr.escape)) = true := by
  decide

/-- C4 amended: in `Prompt` and in the non-windowed `Select` of prompt.go,
escape (with nothing further buffered) ends the session with a nil error
and the destination untouched, distinct from the interrupt outcome; in the
windowed `Select` of select.go the escape outcome is instead returned as
the escape error (still with the destination untouched and distinct from
interrupt). -/
theorem escape_outcome_amended :
    promptEpilogue LoopExit.escape = [PEvent.restoreTerm, PEvent.retNil] ∧
    selectEpiloguePG LoopExit.escape = [PEvent.restoreTerm, PEvent.retNil] ∧
    selectEpilogueTL LoopExit.escape = [PEvent.restoreTerm, PEvent.retErr GoErr.escape] ∧
    ((promptEpilogue LoopExit.escape).contains PEvent.setDst) = false ∧
    ((selectEpiloguePG LoopExit.escape).contains PEvent.setDst) = false ∧
    ((selectEpilogueTL LoopExit.escape).contains PEvent.setDst) = false ∧
    ((promptEpilogue LoopExit.escape).contains (PEvent.retErr GoErr.interrupt)) = false ∧
    ((selectEpilogueTL LoopExit.escape).contains (PEvent.retErr GoErr.interrupt)) = false := by
  decide

/-- C5 counterexample: in the windowed `Select` of select.go, the interrupt
exit raises no SIGINT at all (the claim demands exactly one). -/
theorem select_interrupt_no_sigint_counterexample :
    ((selectEpilogueTL LoopExit.interrupt).count PEvent.raiseSigint == 1) = false ∧
    ((selectEpilogueTL LoopExit.interrupt).contains (PEvent.retErr GoErr.interrupt)) = true := by
  decide

/-- C5 amended: in `Prompt` and in the non-windowed `Select` of prompt.go,
an interrupt restores the terminal first, then raises SIGINT exactly once
and returns the interrupt error exactly once; in the windowed `Select` of
select.go the terminal is restored and the interrupt error returned, but no
SIGINT is raised. -/
theorem interrupt_outcome_amended :
    promptEpilogue LoopExit.interrupt
      = [PEvent.restoreTerm, PEvent.raiseSigint, PEvent.retErr GoErr.interrupt] ∧
    selectEpiloguePG LoopExit.interrupt
      = [PEvent.restoreTerm, PEvent.raiseSigint, PEvent.retErr GoErr.interrupt] ∧
    (promptEpilogue LoopExit.interrupt).count PEvent.raiseSigint = 1 ∧
    (selectEpiloguePG LoopExit.interrupt).count PEvent.raiseSigint = 1 ∧
    (promptEpilogue LoopExit.interrupt).count (PEvent.retErr GoErr.interrupt) = 1 ∧
    selectEpilogueTL LoopExit.interrupt = [PEvent.restoreTerm, PEvent.retErr GoErr.interrupt] ∧
    (selectEpilogueTL LoopExit.interrupt).count PEvent.raiseSigint = 0 := by
  decide

/-- C8 counterexample: the windowed `Select` of select.go has no option
count cap — with 256 options no configuration error is returned and raw
mode is entered. -/
theorem select_no_cap_counterexample :
    selectSessionSG 256 = [SEvent.enterRaw] ∧
    ((selectSessionSG 256).contains (SEvent.errReturn ConfigErr.tooMany)) = false := by
  decide

/-- C8 amended: an empty option slice fails fast before raw mode is ever
entered in both `Select` implementations; the 256-option cap exists only in
the non-windowed `Select` of prompt.go — the windowed `Select` of select.go
proceeds into raw mode for every nonzero option count. -/
theorem select_config_errors_amended (n : Nat) (hcap : 256 ≤ n) :
    selectSessionPG 0 = [SEvent.errReturn ConfigErr.noOptions] ∧
    selectSessionSG 0 = [SEvent.errReturn ConfigErr.noOptions] ∧
    selectSessionPG n = [SEvent.errReturn ConfigErr.tooMany] ∧
    selectSessionSG n = [SEvent.enterRaw] := by
  refine ⟨by decide, by decide, ?_, ?_⟩
  · have hn : n ≠ 0 := by omega
    simp [selectSessionPG, selectChecksPG, hn, hcap]
  · have hn : n ≠ 0 := by omega
    simp [selectSessionSG, selectChecksSG, hn]

/-- Witness for C8 (amended) at 256 options. -/
theorem select_config_errors_amended_witness :
    selectSessionPG 256 = [SEvent.errReturn ConfigErr.tooMany] ∧
    selectSessionSG 256 = [SEvent.enterRaw] :=
  ⟨(select_config_errors_amended 256 (by norm_num)).2.2.1,
   (select_config_errors_amended 256 (by norm_num)).2.2.2⟩

/-- C9: for a nonempty option list, the integer branch of `getSelected`
returns no error and clamps the initial selection into range — negative
values to 0, values at or past the count to count-1, in-range values
unchanged. -/
theorem getSelected_clamps (sel n : Int) (h : 0 < n) :
    (getSelectedGo sel n).2 = none ∧
    0 ≤ (getSelectedGo sel n).1 ∧ (getSelectedGo sel n).1 < n ∧
    (sel < 0 → (getSelectedGo sel n).1 = 0) ∧
    (n ≤ sel → (getSelectedGo sel n).1 = n - 1) ∧
    (0 ≤ sel → sel < n → (getSelectedGo sel n).1 = sel) := by
  unfold getSelectedGo
  refine ⟨rfl, ?_, ?_, ?_, ?_, ?_⟩ <;> simp only [] <;> split_ifs <;> omega

/-- Witness for C9 at concrete out-of-range selections. -/
theorem getSelected_clamps_witness :
    (getSelectedGo (-7) 3).1 = 0 ∧ (getSelectedGo 5 3).1 = 3 - 1 :=
  ⟨(getSelected_clamps (-7) 3 (by norm_num)).2.2.2.1 (by norm_num),
   (getSelected_clamps 5 3 (by norm_num)).2.2.2.2.1 (by norm_num)⟩

/-- C10 (code bug): the floating point conversion of `Prompt` evaluates the
type assertion `perr.(*strconv.NumError)` before checking `perr != nil`, so
a successfully parsed decimal (nil parse error) panics instead of being
stored; the failing parses are reported as overflow or invalid input, and
no input is ever stored. -/
theorem floatConv_panics_on_success :
    floatConvGo ParseFloatOutcome.ok = ConvOutcome.panicked ∧
    floatConvGo ParseFloatOutcome.rangeErr = ConvOutcome.overflowErr ∧
    floatConvGo ParseFloatOutcome.syntaxErr = ConvOutcome.invalidErr ∧
    (∀ p, (floatConvGo p == ConvOutcome.stored) = false) := by
  refine ⟨rfl, rfl, rfl, ?_⟩
  intro p
  cases p <;> rfl

/-! ## The re-filtering loop versus the specification filter -/

/-- Structural form of the filtered index list: the indices from `i`
upward (in order) of the options matching the query. -/
def filterIdxFrom (q : List Char) : List (List Char) → Nat → List Nat
  | [], _ => []
  | o :: rest, i =>
    if matchOption q o then i :: filterIdxFrom q rest (i + 1)
    else filterIdxFrom q rest (i + 1)

theorem refilterAux_fst (q : List Char) (opts : List (List Char)) :
    ∀ (i : Nat) (acc : List Nat) (sel : Int) (has : Bool),
      (refilterAux q opts i acc sel has).1 = acc ++ filterIdxFrom q opts i := by
  induction opts with
  | nil => intro i acc sel has; simp [refilterAux, filterIdxFrom]
  | cons o rest ih =>
    intro i acc sel has
    simp only [refilterAux, filterIdxFrom]
    by_cases hm : matchOption q o = true
    · simp only [hm, if_true]
      by_cases hs : (i : Int) = sel
      · simp [hs, ih]
      · simp [hs, ih]
    · simp only [Bool.not_eq_true] at hm
      simp [hm, ih]

theorem filterIdxFrom_succ (q : List Char) (opts : List (List Char)) :
    ∀ i : Nat, filterIdxFrom q opts (i + 1) = (filterIdxFrom q opts i).map (· + 1) := by
  induction opts with
  | nil => intro i; simp [filterIdxFrom]
  | cons o rest ih =>
    intro i
    simp only [filterIdxFrom]
    by_cases hm : matchOption q o = true
    · simp [hm, ih]
    · simp only [Bool.not_eq_true] at hm
      simp [hm, ih]

theorem specFilteredIndex_eq (q : List Char) (opts : List (List Char)) :
    specFilteredIndex q opts = filterIdxFrom q opts 0 := by
  induction opts with
  | nil => simp [specFilteredIndex, filterIdxFrom]
  | cons o rest ih =>
    unfold specFilteredIndex at ih ⊢
    rw [List.length_cons, List.range_succ_eq_map, List.filter_cons, List.filter_map]
    simp only [Function.comp_def, List.getD_cons_succ, List.getD_cons_zero]
    rw [filterIdxFrom, filterIdxFrom_succ, ← ih]

theorem strStarts_nil (hay : List Char) : strStarts hay [] = true := by
  cases hay <;> rfl

theorem strContains_nil (hay : List Char) : strContains hay [] = true := by
  cases hay <;> rfl

theorem matchOption_nil (o : List Char) : matchOption [] o = true := by
  unfold matchOption
  rw [show lowerStr [] = [] from rfl]
  exact strContains_nil _

/-- C2: the filtered index list rebuilt on a query change equals the
ordered subsequence of original option indices whose labels
case-insensitively contain the query (the spec-side `specFilteredIndex`),
for every query, option list and incoming selection; and for the empty
query it is the identity mapping 0, ..., N-1. -/
theorem terminalList_filteredIndex_spec (q : List Char) (opts : List (List Char)) (sel : Int) :
    (refilterGo q opts sel).1 = specFilteredIndex q opts ∧
    specFilteredIndex [] opts = List.range opts.length := by
  constructor
  · rw [refilterGo, refilterAux_fst, specFilteredIndex_eq, List.nil_append]
  · unfold specFilteredIndex
    simp [matchOption_nil]

theorem refilterAux_snd_past (q : List Char) (opts : List (List Char)) :
    ∀ (i : Nat) (acc : List Nat) (sel : Int) (has : Bool), sel < (i : Int) →
      (refilterAux q opts i acc sel has).2 = (sel, has) := by
  induction opts with
  | nil => intro i acc sel has _; rfl
  | cons o rest ih =>
    intro i acc sel has h
    simp only [refilterAux]
    by_cases hm : matchOption q o = true
    · rw [if_pos hm, if_neg (by omega)]
      exact ih (i + 1) (acc ++ [i]) sel has (by push_cast; omega)
    · rw [if_neg hm]
      exact ih (i + 1) acc sel has (by push_cast; omega)

theorem refilterAux_snd_ahead (q : List Char) (opts : List (List Char)) :
    ∀ (i : Nat) (acc : List Nat) (j : Nat), acc.length ≤ i →
      (refilterAux q opts i acc ((i : Int) + (j : Int)) false).2 =
        (if j < opts.length ∧ matchOption q (opts.getD j []) = true then
          (((acc.length + (opts.take j).countP (fun o => matchOption q o) : Nat) : Int), true)
        else ((i : Int) + (j : Int), false)) := by
  induction opts with
  | nil =>
    intro i acc j _
    rw [if_neg (by simp)]
    rfl
  | cons o rest ih =>
    intro i acc j hacc
    simp only [refilterAux]
    by_cases hm : matchOption q o = true
    · rw [if_pos hm]
      cases j with
      | zero =>
        rw [if_pos (by push_cast; omega)]
        rw [refilterAux_snd_past q rest (i + 1) (acc ++ [i]) (acc.length : Int) true
          (by push_cast; omega)]
        rw [if_pos ⟨by simp, by simpa using hm⟩]
        simp
      | succ j' =>
        rw [if_neg (by push_cast; omega)]
        rw [show (i : Int) + ((j' + 1 : Nat) : Int) = ((i + 1 : Nat) : Int) + (j' : Int) by
          push_cast; omega]
        rw [ih (i + 1) (acc ++ [i]) j' (by simp; omega)]
        by_cases hc : j' < rest.length ∧ matchOption q (rest.getD j' []) = true
        · rw [if_pos hc, if_pos ⟨by simp; omega, by simpa using hc.2⟩]
          have hcnt : (acc ++ [i]).length + (rest.take j').countP (fun o => matchOption q o)
              = acc.length + ((o :: rest).take (j' + 1)).countP (fun o => matchOption q o) := by
            simp [List.countP_cons, hm]
            try omega
          rw [hcnt]
        · rw [if_neg hc, if_neg (by simpa using hc)]
    · rw [if_neg hm]
      cases j with
      | zero =>
        rw [show (i : Int) + ((0 : Nat) : Int) = (i : Int) by push_cast; omega]
        rw [refilterAux_snd_past q rest (i + 1) acc (i : Int) false (by push_cast; omega)]
        rw [if_neg (by simp [hm])]
      | succ j' =>
        rw [show (i : Int) + ((j' + 1 : Nat) : Int) = ((i + 1 : Nat) : Int) + (j' : Int) by
          push_cast; omega]
        rw [ih (i + 1) acc j' (by omega)]
        by_cases hc : j' < rest.length ∧ matchOption q (rest.getD j' []) = true
        · rw [if_pos hc, if_pos ⟨by simp; omega, by simpa using hc.2⟩]
          have hcnt : acc.length + (rest.take j').countP (fun o => matchOption q o)
              = acc.length + ((o :: rest).take (j' + 1)).countP (fun o => matchOption q o) := by
            simp [List.countP_cons, hm]
            try omega
          rw [hcnt]
        · rw [if_neg hc, if_neg (by simpa using hc)]

theorem refilterGo_snd (q : List Char) (opts : List (List Char)) (sel : Int)
    (h0 : 0 ≤ sel) (hN : sel < (opts.length : Int)) :
    (refilterGo q opts sel).2 =
      (if matchOption q (opts.getD sel.toNat []) = true then
        (((opts.take sel.toNat).countP (fun o => matchOption q o) : Int), true)
      else (sel, false)) := by
  have h := refilterAux_snd_ahead q opts 0 [] sel.toNat (by simp)
  have hc : ((0 : Nat) : Int) + (sel.toNat : Int) = sel := by omega
  rw [hc] at h
  have hlt : sel.toNat < opts.length := by omega
  simp only [List.length_nil, Nat.zero_add, hlt, true_and] at h
  exact h

theorem filterIdxFrom_length (q : List Char) (opts : List (List Char)) :
    ∀ i, (filterIdxFrom q opts i).length = opts.countP (fun o => matchOption q o) := by
  induction opts with
  | nil => intro i; simp [filterIdxFrom]
  | cons o rest ih =>
    intro i
    simp only [filterIdxFrom, List.countP_cons]
    by_cases hm : matchOption q o = true
    · rw [if_pos hm]
      simp [hm, ih]
    · rw [if_neg hm]
      simp only [Bool.not_eq_true] at hm
      simp [hm, ih]

theorem countP_take_lt {α : Type} (p : α → Bool) (l : List α) (j : Nat) (d : α)
    (hj : j < l.length) (hp : p (l.getD j d) = true) :
    (l.take j).countP p < l.countP p := by
  have hsplit : l = l.take j ++ l.drop j := (List.take_append_drop j l).symm
  have hdrop : l.drop j = l.getD j d :: l.drop (j + 1) := by
    rw [List.getD_eq_getElem l d hj]
    exact List.drop_eq_getElem_cons hj
  calc (l.take j).countP p
      < (l.take j).countP p + (l.drop j).countP p := by
        rw [hdrop, List.countP_cons, hp]
        simp
    _ = l.countP p := by rw [← List.countP_append, ← hsplit]

theorem filterIdxFrom_getD (q : List Char) (opts : List (List Char)) :
    ∀ (i j : Nat), j < opts.length → matchOption q (opts.getD j []) = true →
      (filterIdxFrom q opts i).getD ((opts.take j).countP (fun o => matchOption q o)) 0
        = i + j := by
  induction opts with
  | nil => intro i j hj _; simp at hj
  | cons o rest ih =>
    intro i j hj hp
    cases j with
    | zero =>
      simp only [List.getD_cons_zero] at hp
      simp [filterIdxFrom, hp]
    | succ j' =>
      simp only [List.getD_cons_succ] at hp
      have hj' : j' < rest.length := by simpa using hj
      simp only [filterIdxFrom, List.take_succ_cons, List.countP_cons]
      by_cases hm : matchOption q o = true
      · rw [if_pos hm]
        simp only [hm, if_true]
        rw [show (rest.take j').countP (fun o => matchOption q o) + 1
            = ((rest.take j').countP (fun o => matchOption q o)) + 1 from rfl]
        rw [List.getD_cons_succ]
        rw [ih (i + 1) j' hj' hp]
        omega
      · rw [if_neg hm]
        simp only [Bool.not_eq_true] at hm
        simp only [hm, Bool.false_eq_true, if_false, Nat.add_zero]
        rw [ih (i + 1) j' hj' hp]
        omega

theorem applyRefilter_fields (options : List (List Char)) (maxLines : Int) (σ : ListState) :
    (applyRefilter options maxLines σ).optionsIndex = (refilterGo σ.query options σ.selected).1 ∧
    (applyRefilter options maxLines σ).numLines
      = goMin maxLines ((refilterGo σ.query options σ.selected).1.length : Int) ∧
    (applyRefilter options maxLines σ).selected =
      (if goMin maxLines ((refilterGo σ.query options σ.selected).1.length : Int) = 0 then 0
       else if (refilterGo σ.query options σ.selected).2.2 then
         (refilterGo σ.query options σ.selected).2.1 else 0) ∧
    (applyRefilter options maxLines σ).prevSelected =
      (if goMin maxLines ((refilterGo σ.query options σ.selected).1.length : Int) = 0 then 0
       else -1) ∧
    (applyRefilter options maxLines σ).query = σ.query ∧
    (applyRefilter options maxLines σ).prevQuery = σ.query ∧
    (applyRefilter options maxLines σ).windowStart = σ.windowStart ∧
    (applyRefilter options maxLines σ).pos = σ.pos := by
  simp only [applyRefilter]
  split
  · rename_i h
    simp [h]
  · rename_i h
    simp [h]

theorem terminalList_refilter_selection (options : List (List Char)) (maxLines : Int)
    (σ : ListState) (hmax : 1 ≤ maxLines) (h0 : 0 ≤ σ.selected)
    (hN : σ.selected < (options.length : Int)) :
    (matchOption σ.query (options.getD σ.selected.toNat []) = true →
      (applyRefilter options maxLines σ).selected
          = ((options.take σ.selected.toNat).countP (fun o => matchOption σ.query o) : Int) ∧
      (applyRefilter options maxLines σ).optionsIndex.getD
          (applyRefilter options maxLines σ).selected.toNat 0 = σ.selected.toNat ∧
      (applyRefilter options maxLines σ).optionsIndex ≠ []) ∧
    (matchOption σ.query (options.getD σ.selected.toNat []) = false →
      (applyRefilter options maxLines σ).selected = 0) := by
  obtain ⟨hoi, hnl, hsel, hps, hq, hpq, hws, hpp⟩ := applyRefilter_fields options maxLines σ
  have hfst : (refilterGo σ.query options σ.selected).1 = filterIdxFrom σ.query options 0 := by
    rw [refilterGo, refilterAux_fst, List.nil_append]
  have hsnd := refilterGo_snd σ.query options σ.selected h0 hN
  have hlen : (refilterGo σ.query options σ.selected).1.length
      = options.countP (fun o => matchOption σ.query o) := by
    rw [hfst, filterIdxFrom_length]
  constructor
  · intro hm
    have hjlt : σ.selected.toNat < options.length := by omega
    have hcnt := countP_take_lt (fun o => matchOption σ.query o) options σ.selected.toNat []
      hjlt hm
    have hMne : goMin maxLines ((refilterGo σ.query options σ.selected).1.length : Int) ≠ 0 := by
      unfold goMin
      rw [hlen]
      split
      · omega
      · omega
    have hselval : (applyRefilter options maxLines σ).selected
        = ((options.take σ.selected.toNat).countP (fun o => matchOption σ.query o) : Int) := by
      rw [hsel, if_neg hMne, hsnd, if_pos hm]
      simp
    refine ⟨hselval, ?_, ?_⟩
    · rw [hselval, hoi, hfst]
      rw [Int.toNat_natCast]
      have := filterIdxFrom_getD σ.query options 0 σ.selected.toNat hjlt hm
      rw [this]
      omega
    · rw [hoi]
      have : 0 < (refilterGo σ.query options σ.selected).1.length := by omega
      exact List.ne_nil_of_length_pos this
  · intro hm
    rw [hsel]
    by_cases hz : goMin maxLines ((refilterGo σ.query options σ.selected).1.length : Int) = 0
    · rw [if_pos hz]
    · rw [if_neg hz, hsnd, hm]
      simp

/-- The options of the relocation counterexample: labels a, ab, b. -/
def cexOptions : List (List Char) := [['a'], ['a', 'b'], ['b']]

/-- The counterexample run: `terminalList` on `cexOptions` with
`maxLines = 4`, the configured scroll offset 5 (clamped on entry), search
enabled and initial selection 2. -/
def cexRun (ks : List LKey) : Option ListState :=
  runList cexOptions 4 (initScroll (goMin 4 3) 5) true (initState cexOptions 4 2) ks

theorem terminalList_reloc_counterexample :
    (cexRun [LKey.char 'b']).map ListState.optionsIndex = some [1, 2] ∧
    (cexRun [LKey.char 'b']).map ListState.selected = some 1 ∧
    (cexRun [LKey.char 'b', LKey.backspace]).map ListState.query = some [] ∧
    matchOption [] (cexOptions.getD 2 []) = true ∧
    (cexRun [LKey.char 'b', LKey.backspace]).map ListState.optionsIndex = some [0, 1, 2] ∧
    (([0, 1, 2] : List Nat).getD 2 0 = 2) ∧
    (cexRun [LKey.char 'b', LKey.backspace]).map ListState.selected = some 1 ∧
    ((1 : Int) == 2) = false := by
  decide

/-- The state fed to the relocation witness: the rendered state after
typing the query b on `cexOptions` starting at selection 2. -/
def reloWitState : ListState :=
  { query := ['b'], prevQuery := [], optionsIndex := [0, 1, 2], selected := 2,
    prevSelected := 2, windowStart := 0, numLines := 3, pos := 1 }

/-- Witness for C3 (amended) at a concrete state and option list. -/
theorem terminalList_refilter_selection_witness :
    (1 : Int) ≤ 4 ∧ (0 : Int) ≤ reloWitState.selected ∧
      reloWitState.selected < (cexOptions.length : Int) ∧
      ((matchOption reloWitState.query (cexOptions.getD reloWitState.selected.toNat []) = true →
        (applyRefilter cexOptions 4 reloWitState).selected
            = ((cexOptions.take reloWitState.selected.toNat).countP
                (fun o => matchOption reloWitState.query o) : Int) ∧
        (applyRefilter cexOptions 4 reloWitState).optionsIndex.getD
            (applyRefilter cexOptions 4 reloWitState).selected.toNat 0
            = reloWitState.selected.toNat ∧
        (applyRefilter cexOptions 4 reloWitState).optionsIndex ≠ []) ∧
       (matchOption reloWitState.query (cexOptions.getD reloWitState.selected.toNat []) = false →
        (applyRefilter cexOptions 4 reloWitState).selected = 0)) :=
  ⟨by norm_num, by decide, by decide,
   terminalList_refilter_selection cexOptions 4 reloWitState (by norm_num) (by decide) (by decide)⟩

/-! ## The window/selection invariant of `terminalList` -/

/-- The window bounds the claim states: the window fits in the filtered
list and the selection sits inside the window. -/
def windowInv (σ : ListState) : Prop :=
  0 ≤ σ.windowStart ∧
  σ.windowStart ≤ (σ.optionsIndex.length : Int) - σ.numLines ∧
  σ.windowStart ≤ σ.selected ∧
  σ.selected < σ.windowStart + σ.numLines

/-- The full invariant of the rendered states of `terminalList`. -/
def listInv (options : List (List Char)) (maxLines : Int) (σ : ListState) : Prop :=
  σ.prevSelected = σ.selected ∧
  σ.numLines = goMin maxLines (σ.optionsIndex.length : Int) ∧
  σ.optionsIndex.length ≤ options.length ∧
  (σ.optionsIndex.length = 0 → σ.selected = 0) ∧
  (σ.optionsIndex.length ≠ 0 → windowInv σ)

/-- The intermediate invariant after a key handler, before the loop head:
the window still brackets `prevSelected` (the previously rendered
selection) and the new selection is in range. -/
def listMid (options : List (List Char)) (maxLines : Int) (σ : ListState) : Prop :=
  σ.numLines = goMin maxLines (σ.optionsIndex.length : Int) ∧
  σ.optionsIndex.length ≤ options.length ∧
  (σ.optionsIndex.length = 0 → σ.selected = 0 ∧ σ.prevSelected = 0) ∧
  (σ.optionsIndex.length ≠ 0 →
    0 ≤ σ.selected ∧ σ.selected < (σ.optionsIndex.length : Int) ∧
    0 ≤ σ.windowStart ∧ σ.windowStart ≤ (σ.optionsIndex.length : Int) - σ.numLines ∧
    σ.windowStart ≤ σ.prevSelected ∧ σ.prevSelected < σ.windowStart + σ.numLines)

theorem goDiv2_bounds (a : Int) (h : 0 ≤ a) : 0 ≤ goDiv a 2 ∧ goDiv a 2 ≤ a := by
  unfold goDiv
  rw [Int.tdiv_eq_ediv h (by norm_num)]
  omega

theorem mid_of_fields (options : List (List Char)) (maxLines : Int) (σ σ' : ListState)
    (hInv : listInv options maxLines σ)
    (hoi : σ'.optionsIndex = σ.optionsIndex) (hnl : σ'.numLines = σ.numLines)
    (hws : σ'.windowStart = σ.windowStart) (hps : σ'.prevSelected = σ.prevSelected)
    (hsel0 : σ.optionsIndex.length = 0 → σ'.selected = 0)
    (hsel1 : σ.optionsIndex.length ≠ 0 →
      0 ≤ σ'.selected ∧ σ'.selected < (σ.optionsIndex.length : Int)) :
    listMid options maxLines σ' := by
  obtain ⟨hp, hn, hl, hz, hw⟩ := hInv
  refine ⟨by rw [hnl, hoi, hn], by rw [hoi]; exact hl, ?_, ?_⟩
  · intro h0
    rw [hoi] at h0
    exact ⟨hsel0 h0, by rw [hps, hp, hz h0]⟩
  · intro h0
    rw [hoi] at h0
    obtain ⟨hw0, hw1, hw2, hw3⟩ := hw h0
    obtain ⟨ha, hb⟩ := hsel1 h0
    rw [hoi, hnl, hws, hps, hp]
    exact ⟨ha, hb, hw0, hw1, hw2, hw3⟩

theorem listInv_selected_bounds (options : List (List Char)) (maxLines : Int) (σ : ListState)
    (hInv : listInv options maxLines σ) (h0 : σ.optionsIndex.length ≠ 0) :
    0 ≤ σ.selected ∧ σ.selected < (σ.optionsIndex.length : Int) := by
  obtain ⟨a, b, c, d⟩ := hInv.2.2.2.2 h0
  constructor <;> omega

theorem listInv_numLines_nonneg (options : List (List Char)) (maxLines : Int) (σ : ListState)
    (hmax : 1 ≤ maxLines) (hInv : listInv options maxLines σ) : 0 ≤ σ.numLines := by
  have h := hInv.2.1
  unfold goMin at h
  split at h <;> omega

theorem handleKey_mid (options : List (List Char)) (maxLines : Int) (withQuery : Bool)
    (k : LKey) (σ σ' : ListState) (hmax : 1 ≤ maxLines)
    (hInv : listInv options maxLines σ)
    (h : handleKey withQuery σ k = some σ') : listMid options maxLines σ' := by
  have hz := hInv.2.2.2.1
  have hsb := listInv_selected_bounds options maxLines σ hInv
  have hnl0 := listInv_numLines_nonneg options maxLines σ hmax hInv
  cases k
  case up =>
    simp only [handleKey] at h
    injection h with h'
    subst h'
    refine mid_of_fields options maxLines σ _ hInv rfl rfl rfl rfl ?_ ?_
    · intro h0
      have := hz h0
      dsimp only
      split_ifs <;> omega
    · intro h0
      have := hsb h0
      dsimp only
      split_ifs <;> omega
  case down =>
    simp only [handleKey] at h
    injection h with h'
    subst h'
    refine mid_of_fields options maxLines σ _ hInv rfl rfl rfl rfl ?_ ?_
    · intro h0
      have := hz h0
      dsimp only
      split_ifs <;> omega
    · intro h0
      have := hsb h0
      dsimp only
      split_ifs <;> omega
  case tab =>
    simp only [handleKey] at h
    injection h with h'
    subst h'
    refine mid_of_fields options maxLines σ _ hInv rfl rfl rfl rfl ?_ ?_
    · intro h0
      have := hz h0
      dsimp only
      split_ifs <;> omega
    · intro h0
      have := hsb h0
      dsimp only
      split_ifs <;> omega
  case pageUp =>
    simp only [handleKey] at h
    injection h with h'
    subst h'
    refine mid_of_fields options maxLines σ _ hInv rfl rfl rfl rfl ?_ ?_
    · intro h0
      have := hz h0
      dsimp only
      split_ifs <;> omega
    · intro h0
      have := hsb h0
      dsimp only
      split_ifs <;> omega
  case pageDown =>
    simp only [handleKey] at h
    injection h with h'
    subst h'
    refine mid_of_fields options maxLines σ _ hInv rfl rfl rfl rfl ?_ ?_
    · intro h0
      have := hz h0
      dsimp only
      split_ifs <;> omega
    · intro h0
      have := hsb h0
      dsimp only
      split_ifs <;> omega
  case backspace =>
    simp only [handleKey] at h
    split at h
    · split at h
      · injection h with h'
        subst h'
        exact mid_of_fields options maxLines σ _ hInv rfl rfl rfl rfl
          (fun h0 => hz h0) (fun h0 => hsb h0)
      · exact Option.noConfusion h
    · injection h with h'
      subst h'
      exact mid_of_fields options maxLines σ _ hInv rfl rfl rfl rfl
        (fun h0 => hz h0) (fun h0 => hsb h0)
  case left =>
    simp only [handleKey] at h
    injection h with h'
    subst h'
    exact mid_of_fields options maxLines σ _ hInv rfl rfl rfl rfl
      (fun h0 => hz h0) (fun h0 => hsb h0)
  case right =>
    simp only [handleKey] at h
    injection h with h'
    subst h'
    exact mid_of_fields options maxLines σ _ hInv rfl rfl rfl rfl
      (fun h0 => hz h0) (fun h0 => hsb h0)
  case home =>
    simp only [handleKey] at h
    split at h
    · injection h with h'
      subst h'
      exact mid_of_fields options maxLines σ _ hInv rfl rfl rfl rfl
        (fun h0 => hz h0) (fun h0 => hsb h0)
    · exact Option.noConfusion h
  case endK =>
    simp only [handleKey] at h
    split at h
    · injection h with h'
      subst h'
      exact mid_of_fields options maxLines σ _ hInv rfl rfl rfl rfl
        (fun h0 => hz h0) (fun h0 => hsb h0)
    · exact Option.noConfusion h
  case ctrlA =>
    simp only [handleKey] at h
    split at h
    · injection h with h'
      subst h'
      exact mid_of_fields options maxLines σ _ hInv rfl rfl rfl rfl
        (fun h0 => hz h0) (fun h0 => hsb h0)
    · exact Option.noConfusion h
  case ctrlB =>
    simp only [handleKey] at h
    injection h with h'
    subst h'
    exact mid_of_fields options maxLines σ _ hInv rfl rfl rfl rfl
      (fun h0 => hz h0) (fun h0 => hsb h0)
  case ctrlE =>
    simp only [handleKey] at h
    split at h
    · injection h with h'
      subst h'
      exact mid_of_fields options maxLines σ _ hInv rfl rfl rfl rfl
        (fun h0 => hz h0) (fun h0 => hsb h0)
    · exact Option.noConfusion h
  case ctrlF =>
    simp only [handleKey] at h
    injection h with h'
    subst h'
    exact mid_of_fields options maxLines σ _ hInv rfl rfl rfl rfl
      (fun h0 => hz h0) (fun h0 => hsb h0)
  case ctrlK =>
    simp only [handleKey] at h
    split at h
    · injection h with h'
      subst h'
      exact mid_of_fields options maxLines σ _ hInv rfl rfl rfl rfl
        (fun h0 => hz h0) (fun h0 => hsb h0)
    · exact Option.noConfusion h
  case ctrlU =>
    simp only [handleKey] at h
    split at h
    · injection h with h'
      subst h'
      exact mid_of_fields options maxLines σ _ hInv rfl rfl rfl rfl
        (fun h0 => hz h0) (fun h0 => hsb h0)
    · exact Option.noConfusion h
  case del =>
    simp only [handleKey] at h
    split at h
    · split at h
      · injection h with h'
        subst h'
        exact mid_of_fields options maxLines σ _ hInv rfl rfl rfl rfl
          (fun h0 => hz h0) (fun h0 => hsb h0)
      · exact Option.noConfusion h
    · injection h with h'
      subst h'
      exact mid_of_fields options maxLines σ _ hInv rfl rfl rfl rfl
        (fun h0 => hz h0) (fun h0 => hsb h0)
  case space =>
    simp only [handleKey] at h
    split at h
    · injection h with h'
      subst h'
      exact mid_of_fields options maxLines σ _ hInv rfl rfl rfl rfl
        (fun h0 => hz h0) (fun h0 => hsb h0)
    · exact Option.noConfusion h
  case enter =>
    simp only [handleKey] at h
    split at h
    · injection h with h'
      subst h'
      exact mid_of_fields options maxLines σ _ hInv rfl rfl rfl rfl
        (fun h0 => hz h0) (fun h0 => hsb h0)
    · exact Option.noConfusion h
  case other =>
    simp only [handleKey] at h
    injection h with h'
    subst h'
    exact mid_of_fields options maxLines σ _ hInv rfl rfl rfl rfl
      (fun h0 => hz h0) (fun h0 => hsb h0)
  case char c =>
    simp only [handleKey] at h
    split at h
    · split at h
      · injection h with h'
        subst h'
        exact mid_of_fields options maxLines σ _ hInv rfl rfl rfl rfl
          (fun h0 => hz h0) (fun h0 => hsb h0)
      · exact Option.noConfusion h
    · injection h with h'
      subst h'
      exact mid_of_fields options maxLines σ _ hInv rfl rfl rfl rfl
        (fun h0 => hz h0) (fun h0 => hsb h0)

theorem clip_window_bounds (sel nl count : Int) (hnl1 : 1 ≤ nl) (hnlc : nl ≤ count)
    (hs0 : 0 ≤ sel) (hsc : sel < count) :
    0 ≤ goClip (sel - goDiv (nl - 1) 2) 0 (count - nl) ∧
    goClip (sel - goDiv (nl - 1) 2) 0 (count - nl) ≤ count - nl ∧
    goClip (sel - goDiv (nl - 1) 2) 0 (count - nl) ≤ sel ∧
    sel < goClip (sel - goDiv (nl - 1) 2) 0 (count - nl) + nl := by
  obtain ⟨hd0, hd1⟩ := goDiv2_bounds (nl - 1) (by omega)
  unfold goClip
  split_ifs <;> omega

theorem refilterGo_length_le (q : List Char) (opts : List (List Char)) (sel : Int) :
    (refilterGo q opts sel).1.length ≤ opts.length := by
  rw [refilterGo, refilterAux_fst, List.nil_append, filterIdxFrom_length]
  exact List.countP_le_length _

theorem refilterGo_reloc_lt (q : List Char) (opts : List (List Char)) (sel : Int)
    (h0 : 0 ≤ sel) (hN : sel < (opts.length : Int))
    (hr : (refilterGo q opts sel).2.2 = true) :
    0 ≤ (refilterGo q opts sel).2.1 ∧
      (refilterGo q opts sel).2.1 < ((refilterGo q opts sel).1.length : Int) := by
  have hsnd := refilterGo_snd q opts sel h0 hN
  have hlen : (refilterGo q opts sel).1.length = opts.countP (fun o => matchOption q o) := by
    rw [refilterGo, refilterAux_fst, List.nil_append, filterIdxFrom_length]
  by_cases hm : matchOption q (opts.getD sel.toNat []) = true
  · have hjlt : sel.toNat < opts.length := by omega
    have hcnt := countP_take_lt (fun o => matchOption q o) opts sel.toNat [] hjlt hm
    rw [hsnd, if_pos hm]
    simp only []
    constructor
    · positivity
    · rw [hlen]
      exact_mod_cast hcnt
  · exfalso
    rw [hsnd, if_neg hm] at hr
    simp at hr

theorem applyWindow_inv_reset (options : List (List Char)) (maxLines M : Int) (σ : ListState)
    (hps : σ.prevSelected = -1)
    (hnl : σ.numLines = goMin maxLines (σ.optionsIndex.length : Int))
    (hle : σ.optionsIndex.length ≤ options.length)
    (hcnt : σ.optionsIndex.length ≠ 0)
    (hmax : 1 ≤ maxLines)
    (hs0 : 0 ≤ σ.selected) (hs1 : σ.selected < (σ.optionsIndex.length : Int)) :
    listInv options maxLines (applyWindow M σ) := by
  have hnl1 : 1 ≤ σ.numLines := by
    rw [hnl]; unfold goMin; split <;> omega
  have hnlc : σ.numLines ≤ (σ.optionsIndex.length : Int) := by
    rw [hnl]; unfold goMin; split <;> omega
  have hc := clip_window_bounds σ.selected σ.numLines (σ.optionsIndex.length : Int)
    hnl1 hnlc hs0 hs1
  unfold applyWindow
  dsimp only
  rw [if_pos hps]
  exact ⟨rfl, hnl, hle, fun h0 => absurd h0 hcnt,
    fun _ => ⟨hc.1, hc.2.1, hc.2.2.1, hc.2.2.2⟩⟩

theorem applyWindow_inv_move (options : List (List Char)) (maxLines M : Int) (σ : ListState)
    (_hmax : 1 ≤ maxLines) (hM0 : 0 ≤ M) (hMm : M < maxLines)
    (hmid : listMid options maxLines σ) (hps0 : 0 ≤ σ.prevSelected)
    (hcnt : σ.optionsIndex.length ≠ 0) :
    listInv options maxLines (applyWindow M σ) := by
  obtain ⟨hnl, hle, _, hn⟩ := hmid
  obtain ⟨hs0, hs1, hw0, hw1, hw2, hw3⟩ := hn hcnt
  have hkey : (σ.numLines = maxLines ∧ σ.numLines ≤ (σ.optionsIndex.length : Int)) ∨
      (σ.numLines = (σ.optionsIndex.length : Int) ∧ σ.numLines ≤ maxLines) := by
    have h := hnl
    unfold goMin at h
    split at h
    · exact Or.inl ⟨by omega, by omega⟩
    · exact Or.inr ⟨by omega, by omega⟩
  refine ⟨rfl, hnl, hle, fun h0 => absurd h0 hcnt, fun _ => ?_⟩
  unfold applyWindow windowInv
  dsimp only
  rw [if_neg (show ¬σ.prevSelected = -1 by omega)]
  unfold goMax goMin
  split_ifs <;> omega

theorem listInv_of_mid_eq (options : List (List Char)) (maxLines : Int) (σ : ListState)
    (hmid : listMid options maxLines σ) (he : σ.selected = σ.prevSelected) :
    listInv options maxLines σ := by
  obtain ⟨hnl, hle, hz, hn⟩ := hmid
  refine ⟨he.symm, hnl, hle, fun h0 => (hz h0).1, fun h0 => ?_⟩
  obtain ⟨hs0, hs1, hw0, hw1, hw2, hw3⟩ := hn h0
  exact ⟨hw0, hw1, by omega, by omega⟩

theorem headStep_inv (options : List (List Char)) (maxLines M : Int) (withQuery : Bool)
    (σ : ListState) (hopts : options ≠ [])
    (hmax : 1 ≤ maxLines) (hM0 : 0 ≤ M) (hMm : M < maxLines)
    (hmid : listMid options maxLines σ) :
    listInv options maxLines (headStep options maxLines M withQuery σ) := by
  have hN1 : 1 ≤ (options.length : Int) := by
    have := List.length_pos.mpr hopts
    omega
  unfold headStep
  dsimp only
  by_cases hq : withQuery = true ∧ σ.query ≠ σ.prevQuery
  · rw [if_pos hq]
    have hselN : 0 ≤ σ.selected ∧ σ.selected < (options.length : Int) := by
      by_cases h0 : σ.optionsIndex.length = 0
      · have := (hmid.2.2.1 h0).1
        omega
      · obtain ⟨a, b, _⟩ := hmid.2.2.2 h0
        have := hmid.2.1
        omega
    obtain ⟨hoi, hnl, hsel, hps, _, _, hws, _⟩ := applyRefilter_fields options maxLines σ
    by_cases hz : goMin maxLines ((refilterGo σ.query options σ.selected).1.length : Int) = 0
    · have hcnt0 : (refilterGo σ.query options σ.selected).1.length = 0 := by
        unfold goMin at hz
        split at hz <;> omega
      have hsel1 : (applyRefilter options maxLines σ).selected = 0 := by
        rw [hsel, if_pos hz]
      have hps1 : (applyRefilter options maxLines σ).prevSelected = 0 := by
        rw [hps, if_pos hz]
      rw [if_neg (by rw [hsel1, hps1]; exact fun hc => hc rfl)]
      refine ⟨by rw [hsel1, hps1], by rw [hnl, hoi], by rw [hoi]; exact refilterGo_length_le _ _ _,
        fun _ => hsel1, fun h0 => ?_⟩
      exact absurd (by rw [hoi]; exact hcnt0) h0
    · have hcnt1 : (refilterGo σ.query options σ.selected).1.length ≠ 0 := by
        intro hc
        apply hz
        rw [hc]
        unfold goMin
        split <;> omega
      have hps1 : (applyRefilter options maxLines σ).prevSelected = -1 := by
        rw [hps, if_neg hz]
      have hselv : (applyRefilter options maxLines σ).selected =
          (if (refilterGo σ.query options σ.selected).2.2 then
            (refilterGo σ.query options σ.selected).2.1 else 0) := by
        rw [hsel, if_neg hz]
      have hselb : 0 ≤ (applyRefilter options maxLines σ).selected ∧
          (applyRefilter options maxLines σ).selected
            < ((applyRefilter options maxLines σ).optionsIndex.length : Int) := by
        rw [hselv, hoi]
        by_cases hr : (refilterGo σ.query options σ.selected).2.2 = true
        · rw [if_pos hr]
          exact refilterGo_reloc_lt σ.query options σ.selected hselN.1 hselN.2 hr
        · rw [if_neg hr]
          constructor
          · omega
          · omega
      rw [if_pos (by rw [hps1]; omega)]
      exact applyWindow_inv_reset options maxLines M (applyRefilter options maxLines σ)
        hps1 (by rw [hnl, hoi]) (by rw [hoi]; exact refilterGo_length_le _ _ _)
        (by rw [hoi]; exact hcnt1) hmax hselb.1 hselb.2
  · rw [if_neg hq]
    by_cases hne : σ.selected ≠ σ.prevSelected
    · rw [if_pos hne]
      have hcnt : σ.optionsIndex.length ≠ 0 := by
        intro h0
        obtain ⟨a, b⟩ := hmid.2.2.1 h0
        exact hne (by rw [a, b])
      have hps0 : 0 ≤ σ.prevSelected := by
        obtain ⟨_, _, hw0, _, hw2, _⟩ := hmid.2.2.2 hcnt
        omega
      exact applyWindow_inv_move options maxLines M σ hmax hM0 hMm hmid hps0 hcnt
    · rw [if_neg hne]
      push_neg at hne
      exact listInv_of_mid_eq options maxLines σ hmid hne

theorem initState_inv (options : List (List Char)) (maxLines sel0 : Int)
    (hopts : options ≠ []) (hmax : 1 ≤ maxLines)
    (hs0 : 0 ≤ sel0) (hsN : sel0 < (options.length : Int)) :
    listInv options maxLines (initState options maxLines sel0) := by
  have hN1 : 1 ≤ (options.length : Int) := by
    have := List.length_pos.mpr hopts
    omega
  have hnl1 : 1 ≤ goMin maxLines (options.length : Int) := by
    unfold goMin
    split <;> omega
  have hnlc : goMin maxLines (options.length : Int) ≤ (options.length : Int) := by
    unfold goMin
    split <;> omega
  have hc := clip_window_bounds sel0 (goMin maxLines (options.length : Int))
    (options.length : Int) hnl1 hnlc hs0 hsN
  unfold initState
  dsimp only
  refine ⟨rfl, ?_, ?_, ?_, fun _ => ?_⟩
  · rw [List.length_range]
  · rw [List.length_range]
  · intro h0
    rw [List.length_range] at h0
    omega
  · unfold windowInv
    dsimp only
    rw [List.length_range]
    exact ⟨hc.1, hc.2.1, hc.2.2.1, hc.2.2.2⟩

theorem runList_inv (options : List (List Char)) (maxLines M : Int) (withQuery : Bool)
    (hopts : options ≠ []) (hmax : 1 ≤ maxLines) (hM0 : 0 ≤ M) (hMm : M < maxLines) :
    ∀ (ks : List LKey) (σ σ' : ListState), listInv options maxLines σ →
      runList options maxLines M withQuery σ ks = some σ' →
      listInv options maxLines σ' := by
  intro ks
  induction ks with
  | nil =>
    intro σ σ' hInv h
    rw [runList] at h
    injection h with h'
    subst h'
    exact hInv
  | cons k ks ih =>
    intro σ σ' hInv h
    rw [runList] at h
    cases hstep : listStep options maxLines M withQuery σ k with
    | none =>
      rw [hstep] at h
      exact Option.noConfusion h
    | some σ₁ =>
      rw [hstep] at h
      unfold listStep at hstep
      cases hh : handleKey withQuery σ k with
      | none =>
        rw [hh] at hstep
        exact Option.noConfusion hstep
      | some σh =>
        rw [hh] at hstep
        simp only [Option.map_some'] at hstep
        injection hstep with h2
        have hmid := handleKey_mid options maxLines withQuery k σ σh hmax hInv hh
        have hinv1 := headStep_inv options maxLines M withQuery σh hopts hmax hM0 hMm hmid
        rw [h2] at hinv1
        exact ih σ₁ σ' hinv1 h

/-- C1: for every nonempty option list, every in-range initial selection,
nonnegative configured scroll offset and positive line budget, and every
sequence of key events that does not crash, whenever the filtered option
set is nonempty the rendered state satisfies
0 ≤ windowStart ≤ filteredCount − visibleLines and
windowStart ≤ selection < windowStart + visibleLines. -/
theorem terminalList_window_invariant (options : List (List Char))
    (maxLines scrollOffset sel0 : Int) (withQuery : Bool) (ks : List LKey) (σ : ListState)
    (hopts : options ≠ []) (hmax : 1 ≤ maxLines) (hso : 0 ≤ scrollOffset)
    (hs0 : 0 ≤ sel0) (hsN : sel0 < (options.length : Int))
    (hrun : runList options maxLines
      (initScroll (goMin maxLines (options.length : Int)) scrollOffset) withQuery
      (initState options maxLines sel0) ks = some σ)
    (hne : σ.optionsIndex ≠ []) :
    0 ≤ σ.windowStart ∧
    σ.windowStart ≤ (σ.optionsIndex.length : Int) - σ.numLines ∧
    σ.windowStart ≤ σ.selected ∧
    σ.selected < σ.windowStart + σ.numLines := by
  have hN1 : 1 ≤ (options.length : Int) := by
    have := List.length_pos.mpr hopts
    omega
  have hnl1 : 1 ≤ goMin maxLines (options.length : Int) := by
    unfold goMin
    split <;> omega
  have hnlm : goMin maxLines (options.length : Int) ≤ maxLines := by
    unfold goMin
    split <;> omega
  obtain ⟨hd0, hd1⟩ := goDiv2_bounds (goMin maxLines (options.length : Int) - 1) (by omega)
  have hM0 : 0 ≤ initScroll (goMin maxLines (options.length : Int)) scrollOffset := by
    unfold initScroll
    split <;> omega
  have hMm : initScroll (goMin maxLines (options.length : Int)) scrollOffset < maxLines := by
    unfold initScroll
    split <;> omega
  have hinv0 := initState_inv options maxLines sel0 hopts hmax hs0 hsN
  have hfin := runList_inv options maxLines
    (initScroll (goMin maxLines (options.length : Int)) scrollOffset) withQuery
    hopts hmax hM0 hMm ks (initState options maxLines sel0) σ hinv0 hrun
  have hcnt : σ.optionsIndex.length ≠ 0 := by
    intro hc
    exact hne (List.length_eq_zero.mp hc)
  exact hfin.2.2.2.2 hcnt

/-- The rendered state reached in the C1 witness run. -/
def c1WitFinal : ListState :=
  { query := [], prevQuery := [], optionsIndex := [0, 1, 2], selected := 1,
    prevSelected := 1, windowStart := 0, numLines := 2, pos := 0 }

/-- Witness for C1 at a concrete option list, configuration and key
sequence (down, type b, up, backspace, down). -/
theorem terminalList_window_invariant_witness :
    cexOptions ≠ [] ∧ (1 : Int) ≤ 2 ∧ (0 : Int) ≤ 5 ∧ (0 : Int) ≤ 1 ∧
      (1 : Int) < (cexOptions.length : Int) ∧
      runList cexOptions 2 (initScroll (goMin 2 (cexOptions.length : Int)) 5) true
        (initState cexOptions 2 1)
        [LKey.down, LKey.char 'b', LKey.up, LKey.backspace, LKey.down] = some c1WitFinal ∧
      c1WitFinal.optionsIndex ≠ [] ∧
      (0 ≤ c1WitFinal.windowStart ∧
       c1WitFinal.windowStart ≤ (c1WitFinal.optionsIndex.length : Int) - c1WitFinal.numLines ∧
       c1WitFinal.windowStart ≤ c1WitFinal.selected ∧
       c1WitFinal.selected < c1WitFinal.windowStart + c1WitFinal.numLines) :=
  ⟨by decide, by norm_num, by norm_num, by norm_num, by decide, by decide, by decide,
   terminalList_window_invariant cexOptions 2 5 1 true
     [LKey.down, LKey.char 'b', LKey.up, LKey.backspace, LKey.down] c1WitFinal
     (by decide) (by norm_num) (by norm_num) (by norm_num) (by decide) (by decide) (by decide)⟩
